import Mathlib

/-
  Verification development for the deno_rsa library: the RS256 signature
  engine (src/Rs256.ts) and the RSA key decoder (RsaKey.ts).

  Modelling conventions, matching the TypeScript source:
  * The source threads bytes around as arrays of hex strings such as "0x3A"
    and hex strings such as "30310D...".  We model a hex STRING as a
    `List Nat` of hex-digit values (each 0..15) and an octet ARRAY as a
    `List Nat` of byte values (each 0..255).  `pairup` is the
    `stringToOctetArray` + `parseInt` composition that turns the former
    into the latter.
  * JS `BigInt("0x" + h)` of a concatenated byte string is `beVal`.
  * JS number arithmetic on the quantities that appear here is exact, with
    one exception: `octets.length / 2` and the derived `pLen` can be
    half-integers.  Those comparisons are therefore modelled in doubled
    (hex-digit) units, which represents the float arithmetic exactly.
  * SHA-256 is an external black box (spec section 1); the message enters
    the engine only through `Sha256.hex()`, the 64 lowercase hex digits of
    the 32-byte digest, so definitions take that digit list as input and
    theorems quantify over the digest.
-/

set_option maxRecDepth 200000

namespace DenoRsa

/-- Value of a byte string read big-endian, i.e. the JS
`BigInt(hexToString(bytes))` used by `rsasp1`; also the sum
`b_0*256^(k-1) + ... + b_(k-1)` from the OS2IP definition in the spec. -/
def beVal (bs : List Nat) : Nat :=
  bs.foldl (fun a b => a * 256 + b) 0

/-- The `RSAPrivateKey` interface of Rs256.ts / RsaKey.ts.  The source keeps
`modulus`, `privateExponent`, the primes, the CRT exponents and the
coefficient as `0x...` hex strings (here: byte lists) and `version`,
`publicExponent` as JS numbers (here: `Nat`, via `parseInt`). -/
structure RSAPrivateKey where
  version : Nat
  modulus : List Nat
  publicExponent : Nat
  privateExponent : List Nat
  prime1 : List Nat
  prime2 : List Nat
  exponent1 : List Nat
  exponent2 : List Nat
  coefficient : List Nat
deriving DecidableEq, Repr

namespace Rs256

/-- Error text of Rs256.emsaEncode when `emLen < tLen + 11` (the JS text is
the same up to an apostrophe and capitalisation, which we avoid). -/
def msgTooShort : String := "the intended encoded message length is too short"

/-- Error text of the (unreachable, see C10) second Rs256.emsaEncode branch. -/
def msgTooLong : String := "the intended encoded message length is too long"

/-- Error text of Rs256.rsasp1. -/
def msgRange : String := "message representative out of range"

/-- Error text of Rs256.i2osp. -/
def msgIntTooLarge : String := "integer is too large"

/-- JS `v.toString(16)` for a byte value `v < 256`: ONE hex digit when
`v < 16` (no zero padding - the i2osp bug), two otherwise. -/
def toString16 (v : Nat) : List Nat :=
  if v < 16 then [v] else [v / 16, v % 16]

/-- `Sha256.hex()` rendering of a byte list: two hex digits per byte.
Bridges the abstract digest bytes to the hex-digit strings the source
threads around. -/
def bytesToHex : List Nat → List Nat
  | [] => []
  | b :: t => b / 16 :: b % 16 :: bytesToHex t

/-- The hex digits of the source string "06 09 60 86 48 01 65 03 04 02 01"
(the SHA-256 OID) with whitespace removed. -/
def oidDigits : List Nat :=
  [0, 6, 0, 9, 6, 0, 8, 6, 4, 8, 0, 1, 6, 5, 0, 3, 0, 4, 0, 2, 0, 1]

/-- Digits of "05 00", the NULL parameters. -/
def oidParamsDigits : List Nat := [0, 5, 0, 0]

/-- Digits of the AlgorithmIdentifier "30 0D" ++ oid ++ params. -/
def algorithmIdentifierDigits : List Nat :=
  [3, 0, 0, 13] ++ oidDigits ++ oidParamsDigits

/-- Rs256.digestInfo (source lines 143-181): hash the message (the caller
passes the 64 hex digits of the digest), then build the DER DigestInfo hex
string "30" ++ length ++ algorithmIdentifier ++ "04 20" ++ hash.  The
length byte is `(13+2+2+32).toString(16)` zero-padded to two digits. -/
def digestInfo (hash : List Nat) : List Nat :=
  let lengthHex := toString16 49
  let lengthHex := if lengthHex.length < 2 then 0 :: lengthHex else lengthHex
  [3, 0] ++ lengthHex ++ algorithmIdentifierDigits ++ ([0, 4, 2, 0] ++ hash)

/-- Rs256.stringToOctetArray followed by `parseInt` of each "0xAB" cell
(as os2ip does): lump hex digits into byte values two at a time.  The JS
loop on an even-length non-empty string pairs exactly like this; on an
empty string it would emit one junk octet (we only ever apply it to
non-empty even-length strings), and on an odd length its final pair would
be NaN, which we drop. -/
def pairup : List Nat → List Nat
  | [] => []
  | [_] => []
  | a :: b :: rest => (16 * a + b) :: pairup rest

/-- Rs256.emsaEncode (source lines 92-136).  `emLen` is the modulus length
in octets.  All length comparisons are stated in doubled units because the
JS `tLen = T.length / 2` and `pLen = emLen - tLen - 3` can be
half-integers; the PS loop `for (i = 0; i < pLen; i++)` then runs
`ceil(pLen)` times, each appending the two digits "FF". -/
def emsaEncode (hash : List Nat) (emLen : Nat) : Except String (List Nat) :=
  let T := digestInfo hash
  if 2 * emLen < T.length + 22 then
    .error msgTooShort
  else
    let pLen2 := 2 * emLen - T.length - 6
    if 16 ≤ pLen2 then
      let psIter := (pLen2 + 1) / 2
      let emStr := [0, 0, 0, 1] ++ (List.replicate psIter [15, 15]).flatten
        ++ [0, 0] ++ T
      .ok (pairup emStr)
    else
      .error msgTooLong

/-- Rs256.os2ip (source lines 188-218): `x = sum(b_i * 256^i)` with `i`
running from the FRONT of the octet array - little-endian accumulation. -/
def os2ip : List Nat → Nat
  | [] => 0
  | b :: rest => b + 256 * os2ip rest

/-- Worker for Rs256.modPow.  The fuel bounds the `while (exponent > 0)`
loop; the exponent at least halves every iteration, so any
`fuel >= exponent` behaves as the JS loop. -/
def modPowAux : Nat → Nat → Nat → Nat → Nat → Nat
  | 0, value, _, _, _ => value
  | fuel + 1, value, base, exponent, modulus =>
    if exponent = 0 then value
    else
      let value := if exponent % 2 = 1 then value * base % modulus else value
      modPowAux fuel value (base * base % modulus) (exponent / 2) modulus

/-- Rs256.modPow (source lines 303-328): right-to-left square and multiply. -/
def modPow (base exponent modulus : Nat) : Nat :=
  modPowAux exponent 1 (base % modulus) exponent modulus

/-- Rs256.rsasp1 (source lines 226-242).  NOTE the guard in the source is
`message < n - 1n`, not `message < n`. -/
def rsasp1 (key : RSAPrivateKey) (message : Nat) : Except String Nat :=
  let n := beVal key.modulus
  let d := beVal key.privateExponent
  if message < n - 1 then
    .ok (modPow message d n)
  else
    .error msgRange

/-- The `while (x)` loop of Rs256.i2osp: append `(x % 256).toString(16)`
(one OR two digits) and divide.  Fuel as in `modPowAux`; the value at
least halves per step, so `fuel >= x` reproduces the loop. -/
def i2ospLoop : Nat → Nat → List Nat → List Nat
  | 0, _, octets => octets
  | fuel + 1, x, octets =>
    if x = 0 then octets
    else i2ospLoop fuel (x / 256) (octets ++ toString16 (x % 256))

/-- Rs256.i2osp (source lines 250-294).  The JS compares the float
`octets.length / 2` with `xLen`; modelled exactly in doubled units.  The
padding loop `for (i = 0; i < padding; i++)` with the possibly
half-integral `padding = xLen - length` runs `ceil(padding)` times, each
prepending the two digits "00". -/
def i2osp (x : Nat) (xLen : Nat) : Except String (List Nat) :=
  if x < 256 ^ xLen then
    let octets := i2ospLoop x x []
    if octets.length = 2 * xLen then
      .ok octets
    else if octets.length < 2 * xLen then
      .ok ((List.replicate ((2 * xLen - octets.length + 1) / 2) [0, 0]).flatten
        ++ octets)
    else
      .error msgIntTooLarge
  else
    .error msgIntTooLarge

/-- Rs256.sign (source lines 51-76) with `RsaKey.decode` factored out: the
caller passes the already decoded key.  `k = (modulus.length - 2) / 2` on
the `0x...` string is the byte count of the stored modulus.  The message
enters only through its SHA-256 digest, passed as the 64 hex digits that
`Sha256.hex()` returns.  The result is the signature hex string (digit
list). -/
def sign (key : RSAPrivateKey) (hash : List Nat) : Except String (List Nat) := do
  let k := key.modulus.length
  let EM ← emsaEncode hash k
  let m := os2ip EM
  let s ← rsasp1 key m
  i2osp s k

end Rs256

/-- The `PrivateKeyInfo` interface of RsaKey.ts.  The source renders the
`algorithm` OID with `hexToUintDot` (byte values joined by dots, not real
base-128 OID decoding); we keep the byte-value list. -/
structure PrivateKeyInfo where
  algorithm : List Nat
  PrivateKey : RSAPrivateKey
deriving DecidableEq, Repr

namespace RsaKey

/-- Error text of RsaKey.decode for an unrecognised armour label (the JS
text names the supported formats; only its identity matters here). -/
def unsupportedMsg : String :=
  "use an unencrypted PKCS#8 or PKCS#1 RSAwithSHA-256 private key"

/-- Stands for the JS TypeError that `array[-1].includes(...)` (after a
failed `indexOf`) or an out-of-bounds field access would raise.  None of
the theorems below reach this case. -/
def msgTypeError : String := "TypeError"

/-- The dead constant `RsaKey.RSAKeyAlgOid` (source line 228).  It is
declared in the source and never read by any method - in particular
`decodePkcs8` never compares the parsed OID against it (claim C7). -/
def RSAKeyAlgOid : String := "1.2.840.113549.1.1.1"

/-- RsaKey.getLength (source lines 482-512): read the DER length whose
first length octet sits at `pos + 1`; returns (length, number of length
octets).  The JS detects long form with `firstLen.charAt(0).includes("8")`
- the high NIBBLE must be exactly 8 - and takes the octet count from the
second nibble (`parseInt` of the bare character; for count nibbles above
9 the JS would produce NaN; no input below uses them). -/
def getLength (a : List Nat) (pos : Nat) : Nat × Nat :=
  let firstLen := a.getD (pos + 1) 0
  if firstLen / 16 = 8 then
    let octetCount := firstLen % 16
    let octets := (a.drop (pos + 2)).take octetCount
    (beVal octets, octetCount + 1)
  else
    (firstLen, 1)

/-- RsaKey.slice (source lines 544-566): the content octets of the TLV
whose tag sits at `identifierPos`, given `getLength`'s output. -/
def sliceAt (array : List Nat) (identifierPos : Nat) (lengthArr : Nat × Nat) :
    List Nat :=
  (array.drop (identifierPos + 1 + lengthArr.2)).take lengthArr.1

/-- JS `array.indexOf(v, start)` returning `none` for -1. -/
def indexOfFrom (a : List Nat) (v : Nat) (start : Nat) : Option Nat :=
  ((a.drop start).findIdx? (· == v)).map (· + start)

/-- RsaKey.extractValues (source lines 402-442): repeatedly scan for the
next `ident` tag byte, read its TLV, collect the content octets, and cut
the array just past the value.  The `while (array.length)` loop is given
fuel; every iteration shortens the array by `j = i + 1 + numLen + len >= 2`,
so any `fuel >= array.length` reproduces the loop.  A scan miss on a
non-empty array makes the JS dereference `array[-1]`, a TypeError. -/
def extractValues : Nat → List Nat → Nat → Except String (List (List Nat))
  | _, [], _ => .ok []
  | 0, _ :: _, _ => .ok []
  | fuel + 1, a@(_ :: _), ident =>
    match a.findIdx? (· == ident) with
    | none => .error msgTypeError
    | some i =>
      let lengths := getLength a i
      let hexArr := sliceAt a i lengths
      let j := i + 1 + lengths.2 + lengths.1
      (extractValues fuel (a.drop j) ident).map (hexArr :: ·)

/-- RsaKey.decodeRsaKey (source lines 347-395): cut the input at the first
INTEGER tag 0x02, extract the nine INTEGER contents, and build the record.
The modulus content gets `.slice(1)` - its FIRST content byte is dropped
UNCONDITIONALLY ("Remove the 0x00 padding") - while every other field is
stored as extracted.  `version` and `publicExponent` go through
`hexToLumpedInt` (`parseInt` of the hex string) = `beVal`. -/
def decodeRsaKey (key : List Nat) : Except String RSAPrivateKey :=
  match key.findIdx? (· == 2) with
  | none => .error msgTypeError
  | some fromIdx =>
    let rest := key.drop fromIdx
    (extractValues (rest.length + 1) rest 2).bind fun hexArray =>
      if 9 ≤ hexArray.length then
        .ok
          { version := beVal (hexArray.getD 0 [])
            modulus := (hexArray.getD 1 []).drop 1
            publicExponent := beVal (hexArray.getD 2 [])
            privateExponent := hexArray.getD 3 []
            prime1 := hexArray.getD 4 []
            prime2 := hexArray.getD 5 []
            exponent1 := hexArray.getD 6 []
            exponent2 := hexArray.getD 7 []
            coefficient := hexArray.getD 8 [] }
      else
        .error msgTypeError

/-- RsaKey.decodePkcs8 (source lines 281-322) on the decoded byte buffer
(`base64ToHex` - PEM base64 handling is external per spec section 1, so the
body arrives as bytes).  Scan for the AlgorithmIdentifier SEQUENCE tag from
index 1, read the OID content, scan on for the next SEQUENCE tag and parse
the RSA key there.  The parsed OID is only STORED (dot-rendered in JS, byte
list here); it is never compared with `RSAKeyAlgOid` and no mismatch error
exists.  A failed `indexOf` would make the JS misindex with -1; those
branches return an error here and are unreached below. -/
def decodePkcs8 (hexKey : List Nat) : Except String PrivateKeyInfo :=
  match indexOfFrom hexKey 48 1 with
  | none => .error msgTypeError
  | some algorithmIdPos =>
    let algIdLen := (getLength hexKey algorithmIdPos).2
    let algOidPos := algorithmIdPos + 1 + algIdLen
    let algOidLen := getLength hexKey algOidPos
    let algorithmOid :=
      (hexKey.drop (algOidPos + 1 + algOidLen.2)).take algOidLen.1
    let keyPos := algOidPos + algOidLen.2 + algOidLen.1
    match indexOfFrom hexKey 48 keyPos with
    | none => .error msgTypeError
    | some rsaPos =>
      (decodeRsaKey (hexKey.drop rsaPos)).map
        (fun pk => { algorithm := algorithmOid, PrivateKey := pk })

/-- RsaKey.decodePkcs1 (source lines 329-335). -/
def decodePkcs1 (key : List Nat) : Except String RSAPrivateKey :=
  decodeRsaKey key

/-- JS `hay.includes(needle)` on strings: substring containment. -/
def strIncludes : List Char → List Char → Bool
  | hay, needle =>
    match hay with
    | [] => needle.isEmpty
    | c :: t => needle.isPrefixOf (c :: t) || strIncludes t needle

/-- RsaKey.decode (source lines 244-274) with the five-dash PEM split
factored out: `ident` is `keySplit[1]` (the armour label between the first
pair of delimiters) and `body` the base64-decoded key bytes.  Dispatch is
by SUBSTRING containment (`String.prototype.includes`), tried for
"BEGIN PRIVATE KEY" (PKCS#8) first and "BEGIN RSA PRIVATE KEY" (PKCS#1)
second; anything else throws. -/
def decode (ident : List Char) (body : List Nat) : Except String RSAPrivateKey :=
  if strIncludes ident ("BEGIN PRIVATE KEY".toList) then
    (decodePkcs8 body).map (·.PrivateKey)
  else if strIncludes ident ("BEGIN RSA PRIVATE KEY".toList) then
    decodePkcs1 body
  else
    .error unsupportedMsg

end RsaKey

namespace Spec

/-- Modelled from the spec: the constant-time equality of section 4.2
("compare two equal-length byte strings by OR-accumulating `a_i XOR b_i`
over all indices; result is `accumulator == 0`").  The corresponding
source code (`constTimeCompStr`) compares a different representation; the
spec mandates this byte-level form, used by `verify` below. -/
def ctEq (a b : List Nat) : Bool :=
  a.length == b.length &&
    ((List.zipWith (fun x y => Nat.xor x y) a b).foldl Nat.lor 0 == 0)

/-- `k` big-endian base-256 digits of `x` (low digits last). -/
def natToBE : Nat → Nat → List Nat
  | 0, _ => []
  | k + 1, x => natToBE k (x / 256) ++ [x % 256]

/-- Modelled from the spec: I2OSP (section 4.2 Numeric primitives) -
"produce `k` big-endian bytes; error if `x >= 256^k`; left-pad with 0x00".
The source i2osp does not implement this (claim C2). -/
def i2ospBE (x k : Nat) : Option (List Nat) :=
  if x < 256 ^ k then some (natToBE k x) else none

/-- Modelled from the spec: OS2IP (section 4.2 Numeric primitives) -
"interpret a byte string as a big-endian non-negative integer", which is
exactly `beVal`. -/
def os2ipBE (bs : List Nat) : Nat := beVal bs

/-- Modelled from the spec: `verify` (section 4.2, Verify steps 1-6).
The body of `Rs256.verify` is MISSING from the source - the method reads
`public verify() {}`, an empty stub returning undefined, although the
test file calls it as `rs256.verify(key, signingInput, signatureHex)` and
branches on the result.  Following the spec text: reject a signature of
the wrong length, reject `s >= n`, compute `m = s^e mod n` (with the
square-and-multiply `modPow` the spec names), re-encode `EM` exactly as in
sign steps 2-4 (the source `emsaEncode`, whose success output matches the
spec layout, see C4/C9), and compare in constant time. -/
def verify (key : RSAPrivateKey) (hash : List Nat) (signature : List Nat) :
    Bool :=
  let k := key.modulus.length
  let n := beVal key.modulus
  if signature.length == k then
    let s := os2ipBE signature
    if s < n then
      let m := Rs256.modPow s key.publicExponent n
      match i2ospBE m k, Rs256.emsaEncode hash k with
      | some emExpected, .ok em => ctEq em emExpected
      | _, _ => false
    else
      false
  else
    false

end Spec

/-
  Concrete test data.  `testKey` is a genuine 496-bit RSA key
  (n = prime1 * prime2, publicExponent * d = 1 mod lcm(p-1, q-1), CRT
  values included), whose modulus is k = 62 bytes - the smallest size the
  engine accepts.  `digest1` and `digest2` stand for SHA-256 outputs.
-/

/-- 62 modulus bytes of the test key. -/
def nBytes : List Nat :=
  [242, 229, 38, 227, 242, 41, 82, 207, 12, 83, 28, 36, 62, 17, 201, 128,
   216, 90, 9, 125, 246, 201, 31, 44, 208, 206, 163, 116, 32, 100, 82, 90,
   219, 202, 21, 19, 236, 252, 106, 197, 227, 61, 100, 225, 119, 215, 205,
   194, 241, 9, 189, 167, 0, 83, 101, 207, 150, 250, 30, 157, 97, 213]

/-- Private-exponent bytes of the test key. -/
def dBytes : List Nat :=
  [52, 211, 43, 99, 21, 174, 113, 9, 0, 136, 46, 173, 159, 38, 37, 41, 181,
   99, 215, 126, 162, 166, 88, 246, 89, 47, 39, 147, 64, 220, 48, 52, 126,
   140, 154, 135, 39, 168, 33, 172, 71, 93, 218, 55, 209, 146, 133, 98, 254,
   41, 182, 81, 214, 209, 123, 200, 245, 190, 30, 117, 152, 157]

/-- A valid 496-bit RSA private key (e = 65537). -/
def testKey : RSAPrivateKey :=
  { version := 0
    modulus := nBytes
    publicExponent := 65537
    privateExponent := dBytes
    prime1 :=
      [255, 13, 253, 176, 76, 178, 29, 199, 70, 210, 20, 215, 246, 244, 38,
       223, 45, 195, 48, 93, 205, 121, 243, 69, 19, 107, 120, 137, 208, 14, 3]
    prime2 :=
      [243, 203, 159, 148, 74, 46, 102, 70, 115, 72, 167, 235, 152, 88, 148,
       13, 27, 128, 34, 101, 76, 204, 5, 225, 92, 54, 76, 165, 107, 213, 71]
    exponent1 :=
      [60, 81, 135, 188, 136, 246, 218, 186, 5, 18, 171, 225, 67, 67, 12,
       106, 93, 125, 58, 212, 4, 67, 33, 248, 37, 22, 150, 132, 41, 19, 23]
    exponent2 :=
      [16, 78, 238, 189, 220, 184, 125, 222, 248, 151, 67, 164, 94, 236, 141,
       250, 210, 124, 31, 208, 230, 242, 62, 242, 116, 88, 173, 135, 227, 78,
       193]
    coefficient :=
      [112, 129, 122, 44, 23, 25, 236, 236, 130, 12, 250, 126, 51, 104, 52,
       236, 133, 253, 20, 4, 207, 138, 161, 172, 54, 128, 186, 90, 30, 68,
       41] }

/-- A valid toy RSA key: n = 55 = 5 * 11, e = 3, d = 27 (3 * 27 = 81 = 1
mod 40).  Too short to sign with, but `rsasp1` is length-agnostic. -/
def smallKey : RSAPrivateKey :=
  { version := 0
    modulus := [55]
    publicExponent := 3
    privateExponent := [27]
    prime1 := [5]
    prime2 := [11]
    exponent1 := [3]
    exponent2 := [7]
    coefficient := [1] }

/-- A 32-byte digest value; the signature representative `s` it induces
under `testKey` has all 62 base-256 digits at least 16, so the source
i2osp emits exactly 124 hex digits (the length bug stays silent and only
the byte-order bug remains). -/
def digest1 : List Nat :=
  [216, 9, 146, 68, 125, 16, 110, 85, 208, 143, 234, 187, 85, 136, 8, 27,
   249, 92, 5, 255, 126, 192, 222, 65, 218, 120, 244, 34, 206, 4, 80, 16]

/-- A 32-byte digest value whose signature representative under `testKey`
has an odd number of base-256 digits below 16, so the source i2osp returns
an odd-length hex string: 125 digits instead of 2 * 62. -/
def digest2 : List Nat :=
  [184, 237, 171, 59, 249, 228, 10, 11, 62, 136, 193, 143, 212, 130, 241,
   242, 62, 5, 168, 65, 123, 221, 73, 169, 199, 86, 166, 241, 22, 25, 203,
   16]

/-- A well-formed toy PKCS#1 RSAPrivateKey DER body whose modulus INTEGER
content [0x11, 0x23] carries NO 0x00 sign pad (first byte 0x11, high bit
clear) and whose prime1 INTEGER content [0x00, 0x80] DOES carry one. -/
def pkcs1NoPadBody : List Nat :=
  [48, 29, 2, 1, 0, 2, 2, 17, 35, 2, 1, 3, 2, 1, 7, 2, 2, 0, 128, 2, 1, 5,
   2, 1, 1, 2, 1, 3, 2, 1, 4]

/-- The RSAPrivateKey that `decodeRsaKey` extracts from the inner PKCS#1
body shared by `pkcs8RsaBody` and `pkcs8DsaBody` below. -/
def toyInnerKey : RSAPrivateKey :=
  { version := 0
    modulus := [161, 183]
    publicExponent := 65537
    privateExponent := [43]
    prime1 := [0, 163]
    prime2 := [0, 253]
    exponent1 := [27]
    exponent2 := [17]
    coefficient := [41] }

/-- A well-formed toy PKCS#8 PrivateKeyInfo body whose AlgorithmIdentifier
carries the rsaEncryption OID 1.2.840.113549.1.1.1
(06 09 2A 86 48 86 F7 0D 01 01 01). -/
def pkcs8RsaBody : List Nat :=
  [48, 55, 2, 1, 0, 48, 13, 6, 9, 42, 134, 72, 134, 247, 13, 1, 1, 1, 5, 0,
   4, 35, 48, 33, 2, 1, 0, 2, 3, 0, 161, 183, 2, 3, 1, 0, 1, 2, 1, 43, 2, 2,
   0, 163, 2, 2, 0, 253, 2, 1, 27, 2, 1, 17, 2, 1, 41]

/-- The same toy PKCS#8 body except that the AlgorithmIdentifier carries
the DSA OID 1.2.840.10040.4.1 (06 07 2A 86 48 CE 38 04 01) - NOT
rsaEncryption. -/
def pkcs8DsaBody : List Nat :=
  [48, 53, 2, 1, 0, 48, 11, 6, 7, 42, 134, 72, 206, 56, 4, 1, 5, 0, 4, 35,
   48, 33, 2, 1, 0, 2, 3, 0, 161, 183, 2, 3, 1, 0, 1, 2, 1, 43, 2, 2, 0,
   163, 2, 2, 0, 253, 2, 1, 27, 2, 1, 17, 2, 1, 41]

end DenoRsa

namespace DenoRsa

-- sanity examples (concrete evaluation of the embedding)
example : Rs256.toString16 5 = [5] := rfl
example : Rs256.toString16 171 = [10, 11] := rfl
example : Rs256.pairup [3, 0, 3, 1] = [48, 49] := rfl
example : Rs256.os2ip [1, 0] = 1 := rfl
example : beVal [1, 0] = 256 := rfl
example : Rs256.modPow 53 27 55 = 37 := by decide
example : Rs256.i2osp 5 2 = .ok [0, 0, 0, 0, 5] := rfl
example : (Rs256.digestInfo (Rs256.bytesToHex (List.replicate 32 0))).length = 102 := by decide
example : RsaKey.strIncludes "BEGIN ENCRYPTED PRIVATE KEY".toList "BEGIN PRIVATE KEY".toList = false := by decide
example : RsaKey.strIncludes "AAA BEGIN PRIVATE KEY BBB".toList "BEGIN PRIVATE KEY".toList = true := by decide
example : RsaKey.strIncludes "BEGIN RSA PRIVATE KEY".toList "BEGIN PRIVATE KEY".toList = false := by decide
example : RsaKey.getLength [2, 130, 1, 35, 9] 0 = (291, 3) := by decide
example : RsaKey.extractValues 20 [2, 1, 0, 2, 2, 17, 35] 2 = .ok [[0], [17, 35]] := rfl
example : Spec.natToBE 3 65538 = [1, 0, 2] := by decide
example : Spec.ctEq [1, 2] [1, 2] = true := by decide
example : Spec.ctEq [1, 2] [1, 3] = false := by decide

/-
  Helper lemmas about the embedded primitives.
-/

/-- The lump-into-bytes map halves the digit count (a trailing unpaired
digit is dropped). -/
theorem pairup_length : ∀ l : List Nat, (Rs256.pairup l).length = l.length / 2
  | [] => rfl
  | [_] => by simp [Rs256.pairup]
  | _ :: _ :: rest => by
    show (Rs256.pairup rest).length + 1 = (rest.length + 1 + 1) / 2
    rw [pairup_length rest]
    omega

/-- Pairing distributes over an append at an even boundary. -/
theorem pairup_append : ∀ a b : List Nat, a.length % 2 = 0 →
    Rs256.pairup (a ++ b) = Rs256.pairup a ++ Rs256.pairup b
  | [], _, _ => rfl
  | [_], _, h => by simp at h
  | x :: y :: rest, b, h => by
    have h2 : rest.length % 2 = 0 := by
      simp only [List.length_cons] at h
      omega
    show (16 * x + y) :: Rs256.pairup (rest ++ b) =
      (16 * x + y) :: (Rs256.pairup rest ++ Rs256.pairup b)
    rw [pairup_append rest b h2]

/-- Pairing the "FF"-run built by the PS loop yields 0xFF bytes. -/
theorem pairup_ffRun (n : Nat) (rest : List Nat) :
    Rs256.pairup ((List.replicate n [15, 15]).flatten ++ rest) =
      List.replicate n 255 ++ Rs256.pairup rest := by
  induction n with
  | zero => rfl
  | succ m ih =>
    rw [List.replicate_succ, List.flatten_cons, List.append_assoc]
    show 255 :: Rs256.pairup ((List.replicate m [15, 15]).flatten ++ rest) =
      255 :: (List.replicate m 255 ++ Rs256.pairup rest)
    rw [ih]

/-- Pairing inverts the hex rendering of a byte list. -/
theorem pairup_bytesToHex : ∀ l : List Nat,
    Rs256.pairup (Rs256.bytesToHex l) = l
  | [] => rfl
  | b :: t => by
    simp only [Rs256.bytesToHex, Rs256.pairup, pairup_bytesToHex t]
    rw [Nat.div_add_mod b 16]

/-- The 38 hex digits that precede the hash inside the DigestInfo string. -/
def tHeadDigits : List Nat :=
  [3, 0, 3, 1] ++ Rs256.algorithmIdentifierDigits ++ [0, 4, 2, 0]

theorem digestInfo_eq (h : List Nat) :
    Rs256.digestInfo h = tHeadDigits ++ h := rfl

theorem digestInfo_length (h : List Nat) :
    (Rs256.digestInfo h).length = 38 + h.length := by
  rw [digestInfo_eq]
  simp [tHeadDigits, Rs256.algorithmIdentifierDigits, Rs256.oidDigits,
    Rs256.oidParamsDigits]
  omega

/-- What `rsasp1` can return: the modular power, or the range error. -/
theorem rsasp1_cases (key : RSAPrivateKey) (m : Nat) :
    Rs256.rsasp1 key m =
        .ok (Rs256.modPow m (beVal key.privateExponent) (beVal key.modulus)) ∨
      Rs256.rsasp1 key m = .error Rs256.msgRange := by
  by_cases hc : m < beVal key.modulus - 1
  · exact Or.inl (by simp [Rs256.rsasp1, hc])
  · exact Or.inr (by simp [Rs256.rsasp1, hc])

/-- What `i2osp` can return: some digit string, or the overflow error. -/
theorem i2osp_cases (x L : Nat) :
    (∃ r, Rs256.i2osp x L = .ok r) ∨
      Rs256.i2osp x L = .error Rs256.msgIntTooLarge := by
  by_cases h1 : x < 256 ^ L
  · by_cases h2 : (Rs256.i2ospLoop x x []).length = 2 * L
    · exact Or.inl ⟨Rs256.i2ospLoop x x [], by simp [Rs256.i2osp, h1, h2]⟩
    · by_cases h3 : (Rs256.i2ospLoop x x []).length < 2 * L
      · refine Or.inl ⟨(List.replicate
          ((2 * L - (Rs256.i2ospLoop x x []).length + 1) / 2) [0, 0]).flatten
            ++ Rs256.i2ospLoop x x [], ?_⟩
        simp [Rs256.i2osp, h1, h2, h3]
      · exact Or.inr (by simp [Rs256.i2osp, h1, h2, h3])
  · exact Or.inr (by simp [Rs256.i2osp, h1])

/-- A short-form DER INTEGER TLV: tag 0x02, one length octet, content. -/
def derInt (c : List Nat) : List Nat := 2 :: c.length :: c

/-- Concatenation of short-form INTEGER TLVs, the shape of a PKCS#1 body
after its outer SEQUENCE header. -/
def tlvConcat : List (List Nat) → List Nat
  | [] => []
  | c :: t => derInt c ++ tlvConcat t

theorem tlvConcat_length_ge : ∀ cs : List (List Nat),
    2 * cs.length ≤ (tlvConcat cs).length
  | [] => Nat.le_refl 0
  | c :: t => by
    have ih := tlvConcat_length_ge t
    simp only [tlvConcat, derInt, List.length_append, List.length_cons,
      List.length_cons]
    omega

/-- The scan-based `extractValues` walks a run of short-form INTEGER TLVs
faithfully: each scan hits the tag at offset 0, the short length octet is
below 0x80, and the cut lands exactly on the next TLV. -/
theorem extractValues_tlvConcat :
    ∀ (cs : List (List Nat)) (fuel : Nat), cs.length ≤ fuel →
      (∀ c ∈ cs, c.length < 128) →
      RsaKey.extractValues fuel (tlvConcat cs) 2 = .ok cs
  | [], fuel, _, _ => by cases fuel <;> rfl
  | c :: t, fuel, hf, hl => by
    obtain ⟨f, rfl⟩ : ∃ f, fuel = f + 1 :=
      ⟨fuel - 1, by simp only [List.length_cons] at hf; omega⟩
    have hc : c.length < 128 := hl c (List.mem_cons_self c t)
    have hstep : tlvConcat (c :: t) = 2 :: c.length :: (c ++ tlvConcat t) := by
      simp [tlvConcat, derInt]
    rw [hstep]
    have hfind : (2 :: c.length :: (c ++ tlvConcat t)).findIdx? (· == 2)
        = some 0 := by
      simp [List.findIdx?_cons]
    have hlen : RsaKey.getLength (2 :: c.length :: (c ++ tlvConcat t)) 0
        = (c.length, 1) := by
      have : ¬ (c.length / 16 = 8) := by omega
      simp [RsaKey.getLength, List.getD, this]
    have hslice : RsaKey.sliceAt (2 :: c.length :: (c ++ tlvConcat t)) 0
        (c.length, 1) = c := by
      simp only [RsaKey.sliceAt]
      show (c ++ tlvConcat t).take c.length = c
      exact List.take_left c (tlvConcat t)
    have hdrop : (2 :: c.length :: (c ++ tlvConcat t)).drop (c.length + 2)
        = tlvConcat t := by
      show (c ++ tlvConcat t).drop c.length = tlvConcat t
      exact List.drop_left c (tlvConcat t)
    have ih := extractValues_tlvConcat t f
      (by simp only [List.length_cons] at hf; omega)
      (fun x hx => hl x (List.mem_cons_of_mem c hx))
    simp only [RsaKey.extractValues, hfind, hlen, hslice]
    rw [show (0 + 1 + (c.length, 1).2 + (c.length, 1).1) = c.length + 2 by
      show 0 + 1 + 1 + c.length = c.length + 2
      omega]
    rw [hdrop, ih]
    rfl

/-
  Claim theorems.
-/

/-- C1.  The claim states `verify(K, m, sign(K, m)) = true` for every valid
key and message.  The source cannot meet it: `Rs256.verify` is an empty
stub (`public verify() {}`, returning undefined), and even the spec-modelled
`Spec.verify` algorithm rejects what `sign` produces, because `i2osp`
emits the signature bytes in reverse (little-endian) order.  At the valid
496-bit `testKey` and the digest `digest1` - chosen so that `sign` succeeds
and returns a well-formed 124-hex-digit string - verification of the
produced signature yields `false`, not `true`. -/
theorem c1_sign_then_verify_fails :
    (Rs256.sign testKey (Rs256.bytesToHex digest1)).map
        (fun sig => Spec.verify testKey (Rs256.bytesToHex digest1)
          (Rs256.pairup sig))
      = .ok false := rfl

/-- C2.  The claim states that `sign` always returns exactly
`k = |n| = 62` octets (124 hex digits), each i2osp iteration emitting one
full octet.  It does not: `toString(16)` of a byte below 16 yields a
single digit, so at `testKey` and `digest2` the signature representative
(which has an odd number of base-256 digits below 16) serialises to 125
hex digits, not 2 * 62 = 124. -/
theorem c2_sign_length_not_k :
    (Rs256.sign testKey (Rs256.bytesToHex digest2)).map List.length
        = .ok 125 ∧
      2 * testKey.modulus.length = 124 := ⟨rfl, rfl⟩

/-- C3.  The claim states OS2IP is big-endian, `x = sum b_i * 256^(k-1-i)`
(first byte most significant), i.e. `beVal`.  The source accumulates
little-endian: on the two-byte string [0x01, 0x00] it returns 1 where the
claimed formula gives 256. -/
theorem c3_os2ip_is_little_endian :
    Rs256.os2ip [1, 0] = 1 ∧ beVal [1, 0] = 256 ∧
      Rs256.os2ip [1, 0] ≠ beVal [1, 0] := by decide

/-- C5.  The claim states RSASP1 errors exactly when `m >= n` and in
particular succeeds at `m = n - 1`.  The source guard is `m < n - 1`: at
the valid toy key with n = 55 it rejects m = 54 = n - 1 and still accepts
m = 53 (53^27 mod 55 = 37). -/
theorem c5_rsasp1_rejects_n_minus_one :
    Rs256.rsasp1 smallKey 54 = .error Rs256.msgRange ∧
      Rs256.rsasp1 smallKey 53 = .ok 37 ∧
      beVal smallKey.modulus = 55 := ⟨rfl, rfl, rfl⟩

/-- C6 counterexample.  The claim says every armour label other than the
exact two supported ones is rejected.  Dispatch is by JS substring
containment, so the label "AAA BEGIN PRIVATE KEY BBB" - equal to neither
label - is happily accepted and decoded down the PKCS#8 path. -/
theorem c6_substring_label_accepted :
    ("AAA BEGIN PRIVATE KEY BBB".toList ≠ "BEGIN PRIVATE KEY".toList) ∧
      ("AAA BEGIN PRIVATE KEY BBB".toList ≠ "BEGIN RSA PRIVATE KEY".toList) ∧
      RsaKey.decode "AAA BEGIN PRIVATE KEY BBB".toList pkcs8RsaBody
        = .ok toyInnerKey :=
  ⟨by decide, by decide, rfl⟩

/-- C7.  The claim says decodePkcs8 requires the AlgorithmIdentifier OID to
be rsaEncryption and otherwise raises UnsupportedKeyFormat.  The source
parses the OID bytes but never compares them with anything (the constant
`RSAKeyAlgOid` is dead): a PKCS#8 blob carrying the DSA OID
1.2.840.10040.4.1 decodes without any error into an RsaPrivateKey. -/
theorem c7_foreign_oid_decodes :
    RsaKey.decodePkcs8 pkcs8DsaBody
      = .ok { algorithm := [42, 134, 72, 206, 56, 4, 1],
              PrivateKey := toyInnerKey } := rfl

/-- C8 counterexample.  The claim says a leading 0x00 content byte of each
PKCS#1 INTEGER is dropped exactly when the next byte has its high bit set,
and the stored big integer equals the unsigned content value.  In
`pkcs1NoPadBody` the modulus content is [0x11, 0x23] (no sign pad, high
bit of 0x11 clear) yet its first byte is dropped - the stored value 0x23
is not the unsigned value 0x1123 - while the prime1 content [0x00, 0x80]
carries a genuine sign pad that is NOT dropped. -/
theorem c8_unconditional_modulus_strip :
    (RsaKey.decodeRsaKey pkcs1NoPadBody).map (fun K => (K.modulus, K.prime1))
        = .ok ([35], [0, 128]) ∧
      beVal [35] ≠ beVal [17, 35] := ⟨rfl, by decide⟩

/-- C10.  Whenever the initial length check of emsaEncode passes
(`emLen >= tLen + 11`), the padding length is automatically at least 8, so
the "too long" branch is unreachable: for every input the function either
returns an encoded message or fails with the "too short" error. -/
theorem c10_too_long_branch_unreachable (hash : List Nat) (emLen : Nat) :
    (∃ em, Rs256.emsaEncode hash emLen = .ok em) ∨
      Rs256.emsaEncode hash emLen = .error Rs256.msgTooShort := by
  by_cases hlt : 2 * emLen < (Rs256.digestInfo hash).length + 22
  · exact Or.inr (by simp [Rs256.emsaEncode, hlt])
  · have h16 : 16 ≤ 2 * emLen - (Rs256.digestInfo hash).length - 6 := by
      omega
    have hok : Rs256.emsaEncode hash emLen =
        .ok (Rs256.pairup ([0, 0, 0, 1]
          ++ (List.replicate
            ((2 * emLen - (Rs256.digestInfo hash).length - 6 + 1) / 2)
              [15, 15]).flatten
          ++ ([0, 0] ++ Rs256.digestInfo hash))) := by
      simp [Rs256.emsaEncode, hlt, h16]
    exact Or.inl ⟨_, hok⟩

/-- C4.  With a real 64-digit SHA-256 hash string, `tLen = 51`, and the
engine raises the "message too long" condition (the source's too-short
error, the spec's MessageTooLong) exactly when `k < 62`.  For `k >= 62`
the encoding succeeds with `EM = 00 01 || PS || 00 || T` of length exactly
`k` and a PS run of `k - 54 >= 8` bytes of 0xFF - and `sign` can then fail
only with the distinct range or overflow errors, never MessageTooLong. -/
theorem c4_message_too_long_iff (key : RSAPrivateKey) (hash : List Nat)
    (hlen : hash.length = 64) :
    (key.modulus.length < 62 →
      Rs256.sign key hash = .error Rs256.msgTooShort) ∧
    (62 ≤ key.modulus.length →
      Rs256.emsaEncode hash key.modulus.length =
          .ok ([0, 1] ++ List.replicate (key.modulus.length - 54) 255
            ++ ([0] ++ Rs256.pairup (Rs256.digestInfo hash))) ∧
        ([0, 1] ++ List.replicate (key.modulus.length - 54) 255
          ++ ([0] ++ Rs256.pairup (Rs256.digestInfo hash))).length
            = key.modulus.length ∧
        8 ≤ key.modulus.length - 54 ∧
        Rs256.sign key hash ≠ .error Rs256.msgTooShort) := by
  have hT : (Rs256.digestInfo hash).length = 102 := by
    rw [digestInfo_length, hlen]
  set k := key.modulus.length with hk
  constructor
  · intro hklt
    have hlt : 2 * k < (Rs256.digestInfo hash).length + 22 := by omega
    have hemsa : Rs256.emsaEncode hash k = .error Rs256.msgTooShort := by
      simp [Rs256.emsaEncode, hlt]
    simp only [Rs256.sign, ← hk, hemsa]
    rfl
  · intro hkge
    have hnlt : ¬ 2 * k < (Rs256.digestInfo hash).length + 22 := by omega
    have h16 : 16 ≤ 2 * k - (Rs256.digestInfo hash).length - 6 := by omega
    have hps : (2 * k - (Rs256.digestInfo hash).length - 6 + 1) / 2
        = k - 54 := by omega
    have hemsa : Rs256.emsaEncode hash k =
        .ok (Rs256.pairup ([0, 0, 0, 1]
          ++ ((List.replicate (k - 54) [15, 15]).flatten
            ++ ([0, 0] ++ Rs256.digestInfo hash)))) := by
      simp [Rs256.emsaEncode, hnlt, h16, hps]
    have hEM : Rs256.pairup ([0, 0, 0, 1]
          ++ ((List.replicate (k - 54) [15, 15]).flatten
            ++ ([0, 0] ++ Rs256.digestInfo hash)))
        = [0, 1] ++ List.replicate (k - 54) 255
            ++ ([0] ++ Rs256.pairup (Rs256.digestInfo hash)) := by
      show 0 :: 1 :: Rs256.pairup ((List.replicate (k - 54) [15, 15]).flatten
          ++ ([0, 0] ++ Rs256.digestInfo hash)) = _
      rw [pairup_ffRun]
      show 0 :: 1 :: (List.replicate (k - 54) 255
          ++ (0 :: Rs256.pairup (Rs256.digestInfo hash))) = _
      simp
    rw [hemsa, hEM]
    refine ⟨rfl, ?_, by omega, ?_⟩
    · simp [pairup_length, hT]
      omega
    · set EMv := [0, 1] ++ List.replicate (k - 54) 255
        ++ ([0] ++ Rs256.pairup (Rs256.digestInfo hash)) with hEMv
      have hsign : Rs256.sign key hash =
          (Rs256.rsasp1 key (Rs256.os2ip EMv)).bind
            (fun s => Rs256.i2osp s k) := by
        simp only [Rs256.sign, ← hk, hemsa, hEM]
        rfl
      rw [hsign]
      rcases rsasp1_cases key (Rs256.os2ip EMv) with h | h
      · rw [h]
        rcases i2osp_cases (Rs256.modPow (Rs256.os2ip EMv)
            (beVal key.privateExponent) (beVal key.modulus)) k with ⟨r, hr⟩ | hr
        · simp [Except.bind, hr]
        · simp [Except.bind, hr, Rs256.msgIntTooLarge, Rs256.msgTooShort]
      · rw [h]
        simp [Except.bind, Rs256.msgRange, Rs256.msgTooShort]

/-- C4 witness: `smallKey` has a 1-byte modulus, so signing raises the
too-short (MessageTooLong) error. -/
theorem c4_witness :
    Rs256.sign smallKey (Rs256.bytesToHex digest1)
      = .error Rs256.msgTooShort :=
  (c4_message_too_long_iff smallKey (Rs256.bytesToHex digest1)
    (by decide)).1 (by decide)

/-- C9.  For every 32-byte digest, the DigestInfo string built by `sign`
is the fixed 19-byte DER prefix 30 31 30 0D 06 09 60 86 48 01 65 03 04 02
01 05 00 04 20 followed immediately by the digest, 51 bytes in total. -/
theorem c9_digestinfo_layout (digest : List Nat) (h : digest.length = 32) :
    Rs256.pairup (Rs256.digestInfo (Rs256.bytesToHex digest)) =
        [48, 49, 48, 13, 6, 9, 96, 134, 72, 1, 101, 3, 4, 2, 1, 5, 0, 4, 32]
          ++ digest ∧
      (Rs256.pairup (Rs256.digestInfo (Rs256.bytesToHex digest))).length
        = 51 := by
  have hmain : Rs256.pairup (Rs256.digestInfo (Rs256.bytesToHex digest)) =
      [48, 49, 48, 13, 6, 9, 96, 134, 72, 1, 101, 3, 4, 2, 1, 5, 0, 4, 32]
        ++ digest := by
    rw [digestInfo_eq, pairup_append tHeadDigits _ (by decide),
      pairup_bytesToHex]
    rfl
  refine ⟨hmain, ?_⟩
  rw [hmain]
  simp [h]

/-- C9 witness at a concrete digest. -/
theorem c9_witness :
    Rs256.pairup (Rs256.digestInfo (Rs256.bytesToHex (List.replicate 32 171)))
      = [48, 49, 48, 13, 6, 9, 96, 134, 72, 1, 101, 3, 4, 2, 1, 5, 0, 4, 32]
          ++ List.replicate 32 171 :=
  (c9_digestinfo_layout (List.replicate 32 171) (by decide)).1

/-- C6 amended.  Dispatch in `decode` is by substring containment of the
armour label, "BEGIN PRIVATE KEY" (to PKCS#8) tried before
"BEGIN RSA PRIVATE KEY" (to PKCS#1); a label containing neither substring
raises UnsupportedKeyFormat.  This gives the claimed behaviour on the two
exact labels and on every standard foreign label (ENCRYPTED, PUBLIC KEY,
...), but also accepts any label merely CONTAINING a supported one. -/
theorem c6_label_dispatch (ident : List Char) (body : List Nat) :
    (RsaKey.strIncludes ident "BEGIN PRIVATE KEY".toList = true →
      RsaKey.decode ident body = (RsaKey.decodePkcs8 body).map
        (·.PrivateKey)) ∧
    (RsaKey.strIncludes ident "BEGIN PRIVATE KEY".toList = false →
      RsaKey.strIncludes ident "BEGIN RSA PRIVATE KEY".toList = true →
      RsaKey.decode ident body = RsaKey.decodePkcs1 body) ∧
    (RsaKey.strIncludes ident "BEGIN PRIVATE KEY".toList = false →
      RsaKey.strIncludes ident "BEGIN RSA PRIVATE KEY".toList = false →
      RsaKey.decode ident body = .error RsaKey.unsupportedMsg) := by
  refine ⟨fun h1 => ?_, fun h1 h2 => ?_, fun h1 h2 => ?_⟩
  · unfold RsaKey.decode
    rw [h1]
    simp
  · unfold RsaKey.decode
    rw [h1, h2]
    simp
  · unfold RsaKey.decode
    rw [h1, h2]
    simp

/-- C6 witness: the PUBLIC KEY label is rejected. -/
theorem c6_label_dispatch_witness :
    RsaKey.decode "BEGIN PUBLIC KEY".toList []
      = .error RsaKey.unsupportedMsg :=
  (c6_label_dispatch "BEGIN PUBLIC KEY".toList []).2.2 (by decide) (by decide)

/-- C8 amended.  On a well-formed PKCS#1 body of nine short-form INTEGER
TLVs, `decodeRsaKey` stores each content unchanged EXCEPT the modulus,
whose first content byte is dropped unconditionally; the stored value
matches the unsigned content value exactly when that dropped byte is a
0x00 sign pad.  (Retained 0x00 pads on other fields do not change their
big-integer value, since the hex string is parsed as a whole.) -/
theorem c8_field_extraction (LL : Nat) (c0 c1 c2 c3 c4 c5 c6 c7 c8 : List Nat)
    (h : LL ≠ 2 ∧ c0.length < 128 ∧ c1.length < 128 ∧ c2.length < 128 ∧
      c3.length < 128 ∧ c4.length < 128 ∧ c5.length < 128 ∧
      c6.length < 128 ∧ c7.length < 128 ∧ c8.length < 128) :
    RsaKey.decodeRsaKey
        (48 :: LL :: tlvConcat [c0, c1, c2, c3, c4, c5, c6, c7, c8])
        = .ok { version := beVal c0, modulus := c1.drop 1,
                publicExponent := beVal c2, privateExponent := c3,
                prime1 := c4, prime2 := c5, exponent1 := c6,
                exponent2 := c7, coefficient := c8 } ∧
      (c1.head? = some 0 → beVal (c1.drop 1) = beVal c1) := by
  obtain ⟨hLL, h0, h1, h2, h3, h4, h5, h6, h7, h8⟩ := h
  constructor
  · have hLLb : (LL == 2) = false := by simp [hLL]
    have hhead : tlvConcat [c0, c1, c2, c3, c4, c5, c6, c7, c8]
        = 2 :: c0.length :: (c0
          ++ tlvConcat [c1, c2, c3, c4, c5, c6, c7, c8]) := by
      simp [tlvConcat, derInt]
    have hfind : (48 :: LL
          :: tlvConcat [c0, c1, c2, c3, c4, c5, c6, c7, c8]).findIdx?
          (· == 2) = some 2 := by
      rw [hhead]
      simp [List.findIdx?_cons, hLLb]
    have hge := tlvConcat_length_ge [c0, c1, c2, c3, c4, c5, c6, c7, c8]
    have hex : RsaKey.extractValues
        ((tlvConcat [c0, c1, c2, c3, c4, c5, c6, c7, c8]).length + 1)
        (tlvConcat [c0, c1, c2, c3, c4, c5, c6, c7, c8]) 2
        = .ok [c0, c1, c2, c3, c4, c5, c6, c7, c8] := by
      refine extractValues_tlvConcat _ _ ?_ ?_
      · simp only [List.length_cons, List.length_nil] at hge ⊢
        omega
      · intro c hc
        simp only [List.mem_cons, List.not_mem_nil, or_false] at hc
        rcases hc with rfl | rfl | rfl | rfl | rfl | rfl | rfl | rfl | rfl
          <;> assumption
    simp only [RsaKey.decodeRsaKey, hfind]
    rw [show (48 :: LL
        :: tlvConcat [c0, c1, c2, c3, c4, c5, c6, c7, c8]).drop 2
      = tlvConcat [c0, c1, c2, c3, c4, c5, c6, c7, c8] from rfl]
    rw [hex]
    rfl
  · intro hh
    cases c1 with
    | nil => simp at hh
    | cons b t =>
      simp only [List.head?_cons, Option.some.injEq] at hh
      subst hh
      rfl

/-- C8 witness: the body of `pkcs1NoPadBody`, written as its nine TLVs. -/
theorem c8_field_extraction_witness :
    RsaKey.decodeRsaKey (48 :: 29 :: tlvConcat
        [[0], [17, 35], [3], [7], [0, 128], [5], [1], [3], [4]])
      = .ok { version := beVal [0], modulus := [17, 35].drop 1,
              publicExponent := beVal [3], privateExponent := [7],
              prime1 := [0, 128], prime2 := [5], exponent1 := [1],
              exponent2 := [3], coefficient := [4] } :=
  (c8_field_extraction 29 [0] [17, 35] [3] [7] [0, 128] [5] [1] [3] [4]
    (by decide)).1

end DenoRsa
